import Mathlib

/-!
Shallow embedding of the conversation orchestration engine of
`app/core/langgraph/graph.py` (class `LangGraphAgent`), together with the
small pieces of its data model that live in modules outside `src/`
(`app.schemas.Message`, `app.core.config.Environment`), which are modelled
from the spec where noted.

Python `async` functions are embedded as pure functions; exceptions become
`Except`; the MongoDB collections behind the checkpointer become explicit
lists of records; the model inference client is an oracle given as a finite
script of responses (one per chat-node invocation, together with the token
chunks it streams).
-/

deriving instance DecidableEq for Except

namespace LangGraphAgent

/-- Message roles, as they appear in the openai-style dictionaries produced
by `convert_to_openai_messages`. -/
inductive Role
  | user
  | assistant
  | tool
  | system
deriving DecidableEq, Repr

/-- Content of a message: plain text, or a list of structured content
blocks (langchain messages may carry `list`-shaped content). -/
inductive Content
  | text (s : String)
  | blocks (bs : List String)
deriving DecidableEq, Repr

/-- Python truthiness of a content value, as tested by
`if ... and message["content"]` in `__process_messages` (graph.py line 446):
the empty string and the empty list are falsy. -/
def Content.isTruthy : Content → Bool
  | .text s => !s.isEmpty
  | .blocks bs => !bs.isEmpty

/-- Python `str(message["content"])` as applied in `__process_messages`
(graph.py line 444): a string is returned unchanged, a list of blocks is
rendered with Python list syntax. -/
def Content.toStr : Content → String
  | .text s => s
  | .blocks bs =>
      "[" ++ String.intercalate ", " (bs.map fun b => "\x27" ++ b ++ "\x27") ++ "]"

/-- A tool call as produced by the model: `tool_call["name"]`,
`tool_call["args"]`, `tool_call["id"]` (graph.py lines 248-255). Arguments
are kept opaque as a string. -/
structure ToolCall where
  name : String
  args : String
  id : String
deriving DecidableEq, Repr

/-- A message of the conversation state (the view of a langchain
`BaseMessage` that graph.py reads: role, content, the assistant message's
`tool_calls`, and a tool message's `tool_call_id` and tool `name`). -/
structure Msg where
  role : Role
  content : Content
  toolCalls : List ToolCall
  toolCallId : Option String
  toolName : Option String
deriving DecidableEq, Repr

/-- A plain user or assistant message with textual content. -/
def Msg.plain (r : Role) (s : String) : Msg :=
  ⟨r, Content.text s, [], none, none⟩

/-- The `GraphState` of `app.schemas`: the checkpointed conversation state, an
ordered message list plus the transient `long_term_memory` string
(graph.py line 334 populates both fields). -/
structure GraphState where
  messages : List Msg
  long_term_memory : String
deriving DecidableEq, Repr

/-- Nodes of the langgraph state machine: the two nodes added in
`create_graph` (graph.py lines 268-269) plus the `END` terminal. -/
inductive Node
  | chat
  | tool_call
  | terminal
deriving DecidableEq, Repr

/-- A langgraph `Command`: the state update (messages to append via the
`add_messages` reducer) and the next node (graph.py lines 227, 257). -/
structure Command where
  update : List Msg
  goto : Node
deriving DecidableEq, Repr

/-- Applying a `Command`'s update to the state: the `messages` reducer of
`GraphState` appends the new messages to the existing sequence. -/
def applyCommand (state : GraphState) (c : Command) : GraphState :=
  { state with messages := state.messages ++ c.update }

/-- The routing decision of `_chat` on a successful model response
(graph.py lines 221-227): if `response_message.tool_calls` is non-empty the
next node is `tool_call`, otherwise `END`; either way the update carries
exactly the assistant message. -/
def chatCommand (response_message : Msg) : Command :=
  { update := [response_message]
    goto := if !response_message.toolCalls.isEmpty then Node.tool_call else Node.terminal }

/-- The `_chat` node seen from its inference call: on `.ok` the command of
`chatCommand`; on failure the wrapped fatal error of graph.py line 235. -/
def chatStep (llmResult : Except String Msg) : Except String Command :=
  match llmResult with
  | .ok m => .ok (chatCommand m)
  | .error e => .error ("failed to get llm response after trying all models: " ++ e)

/-- The tool registry `tools_by_name` (graph.py line 64): a partial map
from tool name to an invocable, itself modelled as a function from the
(opaque) arguments to the result text of `ainvoke`. -/
def Registry : Type := String → Option (String → String)

/-- Failures of the `_tool_call` node: the `KeyError` raised by the
dictionary lookup `self.tools_by_name[tool_call["name"]]` on an unknown
name (graph.py line 249), and the `IndexError` of `state.messages[-1]` on
an empty state (graph.py line 248). -/
inductive ToolError
  | unknownTool (name : String)
  | emptyState
deriving DecidableEq, Repr

/-- The loop body of `_tool_call` (graph.py lines 247-256): for each tool
call in the order given by the model, look the name up (an absent name
raises and aborts the whole step) and invoke the tool, collecting a
`ToolMessage` with the result as content, the tool name, and the matching
`tool_call_id`. -/
def execToolCalls (reg : Registry) : List ToolCall → Except ToolError (List Msg)
  | [] => .ok []
  | tc :: rest =>
    match reg tc.name with
    | none => .error (ToolError.unknownTool tc.name)
    | some tool =>
      let tool_result := tool tc.args
      match execToolCalls reg rest with
      | .ok outputs =>
          .ok (Msg.mk Role.tool (Content.text tool_result) [] (some tc.id) (some tc.name) :: outputs)
      | .error e => .error e

/-- The `_tool_call` node (graph.py lines 238-257): read the tool calls of
the last message of the state, execute them in order, and return a
`Command` appending the tool messages and routing back to `chat`. -/
def toolCallStep (reg : Registry) (state : GraphState) : Except ToolError Command :=
  match state.messages.getLast? with
  | none => .error ToolError.emptyState
  | some last =>
    match execToolCalls reg last.toolCalls with
    | .ok outputs => .ok { update := outputs, goto := Node.chat }
    | .error e => .error e

/-- Modelled from the spec: the deployment modes of
`app.core.config.Environment` (that module is not under `src/`); the spec
distinguishes only a "production" mode from "any other mode", of which the
usual development/staging/test trio is representative. -/
inductive Environment
  | development
  | staging
  | production
  | test
deriving DecidableEq, Repr

/-- A record in one of the two MongoDB collections behind the checkpointer
(`db.checkpoints` and `db.checkpoint_writes`), keyed by `thread_id`; the
rest of the document is opaque. -/
structure MongoRecord where
  thread_id : String
  payload : String
deriving DecidableEq, Repr

/-- The checkpointer database reached through `checkpointer.db`
(graph.py line 466): its `checkpoints` and `checkpoint_writes`
collections. -/
structure CheckpointDb where
  checkpoints : List MongoRecord
  checkpoint_writes : List MongoRecord
deriving DecidableEq, Repr

/-- MongoDB `delete_many({"thread_id": session_id})` on a collection:
the remaining records and the `deleted_count` of the result. -/
def delete_many (coll : List MongoRecord) (session_id : String) :
    List MongoRecord × Nat :=
  (coll.filter fun r => !(r.thread_id == session_id),
   (coll.filter fun r => r.thread_id == session_id).length)

/-- Method `_get_checkpointer` (graph.py lines 97-132), seen from the outcome of
the MongoDB connection attempt: on success the checkpointer; on failure,
`None` in production (warning logged) and a re-raise in any other
environment. Memoization is not modelled: each run makes one attempt. -/
def getCheckpointer (env : Environment) (init : Except String CheckpointDb) :
    Except String (Option CheckpointDb) :=
  match init with
  | .ok db => .ok (some db)
  | .error e =>
    if env = Environment.production then .ok none else .error e

/-- The compiled langgraph workflow: all that the claims observe of it is
whether it was compiled with a checkpointer (graph.py line 278). -/
structure CompiledGraph where
  checkpointer : Option CheckpointDb
deriving DecidableEq, Repr

/-- Method `create_graph` (graph.py lines 259-296): build the two-node graph,
obtain the checkpointer, raise if it is `None` outside production, and
compile; any exception in the body is caught, and in production the method
returns `None` (`continuing_without_graph`) instead of raising. -/
def createGraph (env : Environment) (init : Except String CheckpointDb) :
    Except String (Option CompiledGraph) :=
  let attempt : Except String CompiledGraph :=
    match getCheckpointer env init with
    | .error e => .error e
    | .ok ckptOpt =>
      if ckptOpt.isNone ∧ env ≠ Environment.production then
        .error "MongoDB checkpointer initialization failed"
      else .ok ⟨ckptOpt⟩
  match attempt with
  | .ok g => .ok (some g)
  | .error e =>
    if env = Environment.production then .ok none else .error e

/-- The outcome of `memory.search` inside `_get_relevant_memory`: either a
result list (the `result["memory"]` strings of `results["results"]`), or
any exception raised on the way (service unavailable, malformed
response). -/
inductive MemorySearchOutcome
  | ok (results : List String)
  | failure (err : String)
deriving DecidableEq, Repr

/-- Method `_get_relevant_memory` (graph.py lines 134-151): render the search
results as a bulleted block joined by newlines; on any exception log and
return the empty string. -/
def getRelevantMemory (outcome : MemorySearchOutcome) : String :=
  match outcome with
  | .ok results => String.intercalate "\n" (results.map fun r => "* " ++ r)
  | .failure _ => ""

/-- The expression `(await self._get_relevant_memory(...)) or "No relevant
memory found."` of graph.py lines 329-331 and 385-387: Python `or`
replaces a falsy (empty) string by the placeholder. -/
def relevantMemoryOrDefault (outcome : MemorySearchOutcome) : String :=
  let m := getRelevantMemory outcome
  if m = "" then "No relevant memory found." else m

/-- One chat-node round of the model inference oracle: the token chunks the
underlying langchain model streams during the call (surfaced by langgraph
in `stream_mode="messages"`), and the final assistant message the call
returns. An exhausted script models the inference client raising after all
retries. -/
structure ScriptEntry where
  chunks : List String
  response : Msg
deriving DecidableEq, Repr

/-- Fatal turn failures: inference exhaustion (graph.py line 235) and a
tool-node failure. -/
inductive TurnError
  | inferenceExhausted
  | tool (e : ToolError)
deriving DecidableEq, Repr

/-- The chat/tool_call loop as executed by `ainvoke`/`astream` over the
graph of `create_graph`: each round invokes the chat node (consuming one
script entry, emitting its token chunks into the stream), appends the
assistant message, and either terminates (no tool calls) or runs the
tool node — which appends the tool-result messages in call order and
loops back to chat. Returns the tokens emitted so far together with the
final state or the fatal error. -/
def runLoopStream (reg : Registry) :
    List ScriptEntry → GraphState → List String × Except TurnError GraphState
  | [], _ => ([], .error TurnError.inferenceExhausted)
  | e :: rest, st =>
    if e.response.toolCalls.isEmpty then
      (e.chunks, .ok { st with messages := st.messages ++ [e.response] })
    else
      match execToolCalls reg e.response.toolCalls with
      | .error err => (e.chunks, .error (TurnError.tool err))
      | .ok outputs =>
        let next := runLoopStream reg rest
          { st with messages := st.messages ++ e.response :: outputs }
        (e.chunks ++ next.1, next.2)

/-- The same loop without token observation, as `ainvoke` runs it. -/
def runLoop (reg : Registry) (script : List ScriptEntry) (st : GraphState) :
    Except TurnError GraphState :=
  (runLoopStream reg script st).2

/-- The schema `app.schemas.Message`, the public reply shape `{role, content}`
produced by `__process_messages`. -/
structure ApiMessage where
  role : Role
  content : String
deriving DecidableEq, Repr

/-- Method `__process_messages` (graph.py lines 440-447): keep only the messages
whose role is `assistant` or `user` and whose content is truthy, and
render each as `{role, str(content)}`; order is that of the input list. -/
def processMessages (messages : List Msg) : List ApiMessage :=
  (messages.filter fun m =>
      (m.role == Role.assistant || m.role == Role.user) && m.content.isTruthy).map
    fun m => ApiMessage.mk m.role m.content.toStr

/-- The observable ordering of the side effects of a response path: the
checkpoint commit performed by `ainvoke`/`astream`, the post-stream
read-back of the finalized state (`get_state`, graph.py line 403), the
scheduling of the background memory-update task with the message list it
will observe (graph.py lines 338-342 and 405-409), and the return of the
reply. Events are listed in program order. -/
inductive Event
  | checkpointCommit (messages : List Msg)
  | stateReadBack (messages : List Msg)
  | scheduleMemoryUpdate (payload : List Msg)
  | returnReply
deriving DecidableEq, Repr

/-- The successful outcome of `get_response`: the final conversation
state, the assembled reply, and the side-effect trace. -/
structure ResponseOutcome where
  finalState : GraphState
  reply : List ApiMessage
  trace : List Event
deriving DecidableEq, Repr

/-- Method `get_response` (graph.py lines 298-355): create the graph if needed,
compute the relevant-memory string (placeholder when empty), run the turn
via `ainvoke` (which commits the final state when a checkpointer is
present), then schedule the background memory update with the response's
message list, and return the assembled reply. Any exception propagates to
the caller. A `None` graph (production after graph-creation failure) makes
`self._graph.ainvoke` raise an attribute error. -/
def getResponse (env : Environment) (init : Except String CheckpointDb)
    (mem : MemorySearchOutcome) (reg : Registry) (script : List ScriptEntry)
    (input : List Msg) : Except String ResponseOutcome :=
  match createGraph env init with
  | .error e => .error e
  | .ok none => .error "NoneType object has no attribute ainvoke"
  | .ok (some g) =>
    let relevant_memory := relevantMemoryOrDefault mem
    match runLoop reg script ⟨input, relevant_memory⟩ with
    | .error TurnError.inferenceExhausted =>
        .error "failed to get llm response after trying all models"
    | .error (TurnError.tool e) => .error (toString (repr e))
    | .ok finalState =>
      let commitTrace : List Event :=
        match g.checkpointer with
        | some _ => [Event.checkpointCommit finalState.messages]
        | none => []
      .ok { finalState := finalState
            reply := processMessages finalState.messages
            trace := commitTrace ++
              [Event.scheduleMemoryUpdate finalState.messages, Event.returnReply] }

/-- The successful tail of `get_stream_response` after the token stream is
exhausted: the finalized-state read-back and the memory-update
scheduling. -/
structure StreamOutcome where
  finalState : GraphState
  trace : List Event
deriving DecidableEq, Repr

/-- Method `get_stream_response` (graph.py lines 357-421): create the graph,
compute the relevant-memory string, then iterate `astream(...,
stream_mode="messages")`, yielding `token.content` for every streamed
token — langgraph's messages mode surfaces the token chunks of every
model invocation inside any node, and the code applies no filtering by
originating step. After exhaustion, read the finalized state back with
`get_state` (which raises when the graph has no checkpointer) and schedule
the memory update with that state's messages. Returns the yielded tokens
together with the terminal outcome. -/
def getStreamResponse (env : Environment) (init : Except String CheckpointDb)
    (mem : MemorySearchOutcome) (reg : Registry) (script : List ScriptEntry)
    (input : List Msg) : List String × Except String StreamOutcome :=
  match createGraph env init with
  | .error e => ([], .error e)
  | .ok none => ([], .error "NoneType object has no attribute astream")
  | .ok (some g) =>
    let relevant_memory := relevantMemoryOrDefault mem
    match runLoopStream reg script ⟨input, relevant_memory⟩ with
    | (tokens, .error _) => (tokens, .error "Error in stream processing")
    | (tokens, .ok finalState) =>
      match g.checkpointer with
      | none => (tokens, .error "No checkpointer set")
      | some _ =>
        (tokens, .ok
          { finalState := finalState
            trace := [Event.checkpointCommit finalState.messages,
                      Event.stateReadBack finalState.messages,
                      Event.scheduleMemoryUpdate finalState.messages] })

/-- Method `get_chat_history` (graph.py lines 423-438): read the latest state for
the session from the checkpointer and assemble it with
`__process_messages`; an absent state (`state.values` empty) yields the
empty history. -/
def getChatHistory (stored : Option GraphState) : List ApiMessage :=
  match stored with
  | some st => processMessages st.messages
  | none => []

/-- Method `clear_chat_history` (graph.py lines 449-486): require the
checkpointer (raise when it is unavailable), `delete_many` the session's
records from the `checkpoints` and `checkpoint_writes` collections, and
report both deleted counts. -/
def clearChatHistory (ckpt : Option CheckpointDb) (session_id : String) :
    Except String (CheckpointDb × Nat × Nat) :=
  match ckpt with
  | none => .error "MongoDB checkpointer not available"
  | some db =>
    let cres := delete_many db.checkpoints session_id
    let wres := delete_many db.checkpoint_writes session_id
    .ok (⟨cres.1, wres.1⟩, cres.2, wres.2)

/-! ### Helper lemmas -/

/-- A truthy content value never renders to the empty string. -/
theorem Content.toStr_ne_empty (c : Content) (h : c.isTruthy = true) :
    c.toStr ≠ "" := by
  cases c with
  | text s =>
    intro he
    simp [Content.isTruthy] at h
    rw [Content.toStr] at he
    subst he
    exact absurd h (by decide)
  | blocks bs =>
    intro he
    have hlen := congrArg String.length he
    simp [Content.toStr, String.length_append] at hlen
    exact absurd hlen.1.1 (by decide)

/-- When every tool name resolves in the registry, `execToolCalls`
succeeds and produces one tool message per call, in call order, each
carrying the identifier and name of the call it answers. -/
theorem execToolCalls_ok (reg : Registry) :
    ∀ calls : List ToolCall, (∀ tc ∈ calls, (reg tc.name).isSome) →
    ∃ outputs, execToolCalls reg calls = Except.ok outputs ∧
      outputs.map Msg.toolCallId = calls.map (fun tc => some tc.id) ∧
      outputs.map Msg.toolName = calls.map (fun tc => some tc.name) ∧
      ∀ m ∈ outputs, m.role = Role.tool := by
  intro calls
  induction calls with
  | nil => exact fun _ => ⟨[], rfl, rfl, rfl, by simp⟩
  | cons tc rest ih =>
    intro h
    obtain ⟨tool, htool⟩ := Option.isSome_iff_exists.mp (h tc (by simp))
    obtain ⟨outs, hok, hids, hnames, hroles⟩ :=
      ih (fun x hx => h x (by simp [hx]))
    refine ⟨Msg.mk Role.tool (Content.text (tool tc.args)) [] (some tc.id) (some tc.name) :: outs,
      ?_, ?_, ?_, ?_⟩
    · simp [execToolCalls, htool, hok]
    · simp [hids]
    · simp [hnames]
    · intro m hm
      rcases List.mem_cons.mp hm with h1 | h2
      · subst h1; rfl
      · exact hroles m h2

/-- When some tool name is absent from the registry, `execToolCalls`
aborts with an unknown-tool error naming an absent tool. -/
theorem execToolCalls_unknown (reg : Registry) :
    ∀ calls : List ToolCall, (∃ tc ∈ calls, reg tc.name = none) →
    ∃ nm, reg nm = none ∧
      execToolCalls reg calls = Except.error (ToolError.unknownTool nm) := by
  intro calls
  induction calls with
  | nil =>
    rintro ⟨tc, hmem, -⟩
    exact absurd hmem (List.not_mem_nil tc)
  | cons tc rest ih =>
    rintro ⟨x, hx, hnone⟩
    cases htc : reg tc.name with
    | none => exact ⟨tc.name, htc, by simp [execToolCalls, htc]⟩
    | some tool =>
      have hxrest : x ∈ rest := by
        rcases List.mem_cons.mp hx with h1 | h2
        · subst h1; rw [htc] at hnone; cases hnone
        · exact h2
      obtain ⟨nm, h1, h2⟩ := ih ⟨x, hxrest, hnone⟩
      exact ⟨nm, h1, by simp [execToolCalls, htc, h2]⟩

/-- The turn loop never changes the `long_term_memory` field of the
state: it only appends messages. -/
theorem runLoop_memory (reg : Registry) :
    ∀ (script : List ScriptEntry) (st final : GraphState),
      runLoop reg script st = Except.ok final →
      final.long_term_memory = st.long_term_memory := by
  intro script
  induction script with
  | nil => intro st final h; simp [runLoop, runLoopStream] at h
  | cons e rest ih =>
    intro st final h
    rw [runLoop, runLoopStream] at h
    by_cases he : e.response.toolCalls.isEmpty
    · rw [if_pos he] at h
      simp only at h
      cases h
      rfl
    · rw [if_neg he] at h
      cases hexec : execToolCalls reg e.response.toolCalls with
      | error err => rw [hexec] at h; exact absurd h (by simp)
      | ok outputs =>
        rw [hexec] at h
        simp only at h
        exact ih { st with messages := st.messages ++ e.response :: outputs } final h

/-! ### Concrete fixtures (the weather scenario of the spec) -/

/-- A registry holding a single tool `get_weather`. -/
def demoRegistry : Registry :=
  fun n => if n = "get_weather" then some (fun _ => "18C, cloudy") else none

/-- A checkpointer database holding one prior record per collection. -/
def demoDb : CheckpointDb :=
  ⟨[MongoRecord.mk "s1" "ck0"], [MongoRecord.mk "s1" "w0"]⟩

/-- The user's message. -/
def demoUser : Msg := Msg.plain Role.user "What is the weather?"

/-- The model's first reply: no text, one tool call. -/
def demoToolCallMsg : Msg :=
  Msg.mk Role.assistant (Content.text "") [ToolCall.mk "get_weather" "Paris" "call1"] none none

/-- The tool-result message produced for `call1`. -/
def demoToolResult : Msg :=
  Msg.mk Role.tool (Content.text "18C, cloudy") [] (some "call1") (some "get_weather")

/-- The model's final reply. -/
def demoFinalMsg : Msg := Msg.plain Role.assistant "It is 18C and cloudy in Paris."

/-- The inference script of the turn: a tool-call round (streaming the
token "thinking"), then the final round. -/
def demoScript : List ScriptEntry :=
  [ScriptEntry.mk ["thinking"] demoToolCallMsg,
   ScriptEntry.mk ["It is 18C"] demoFinalMsg]

/-- The message sequence of the finished turn. -/
def demoHistoryMsgs : List Msg :=
  [demoUser, demoToolCallMsg, demoToolResult, demoFinalMsg]

/-! ### Claim theorems -/

/-- C1: on a successful model response, the `_chat` node appends exactly
the assistant message to the conversation state and routes to the
`tool_call` node when the message carries tool calls, and to the terminal
node when it carries none. -/
theorem chat_routes_on_tool_calls (state : GraphState) (m : Msg) :
    chatStep (Except.ok m) = Except.ok (chatCommand m) ∧
    (applyCommand state (chatCommand m)).messages = state.messages ++ [m] ∧
    (m.toolCalls ≠ [] → (chatCommand m).goto = Node.tool_call) ∧
    (m.toolCalls = [] → (chatCommand m).goto = Node.terminal) := by
  refine ⟨rfl, rfl, ?_, ?_⟩
  · intro h
    simp [chatCommand, h]
  · intro h
    simp [chatCommand, h]

/-- Witness for C1: a tool-calling response routes to `tool_call`, a plain
response routes to the terminal node, and the message is appended. -/
theorem chat_routes_on_tool_calls_witness :
    (chatCommand (Msg.mk Role.assistant (Content.text "") [ToolCall.mk "get_weather" "Paris" "c1"] none none)).goto = Node.tool_call ∧
    (chatCommand (Msg.plain Role.assistant "hello")).goto = Node.terminal ∧
    (applyCommand ⟨[], ""⟩ (chatCommand (Msg.plain Role.assistant "hello"))).messages
      = [Msg.plain Role.assistant "hello"] := by
  refine ⟨?_, ?_, ?_⟩
  · exact (chat_routes_on_tool_calls ⟨[], ""⟩ _).2.2.1 (by decide)
  · exact (chat_routes_on_tool_calls ⟨[], ""⟩ _).2.2.2 rfl
  · exact (chat_routes_on_tool_calls ⟨[], ""⟩ (Msg.plain Role.assistant "hello")).2.1

/-- C2: when the state ends in an assistant message whose tool calls all
resolve in the registry, the `_tool_call` node succeeds, produces one
tool-result message per call carrying the identifier of the call it
answers, in exactly the call order, appends them after the existing state,
and routes back to `chat`. (Execution is sequential, so completion latency
cannot reorder results.) -/
theorem tool_results_in_call_order (reg : Registry) (pre : List Msg) (a : Msg)
    (ltm : String) (h : ∀ tc ∈ a.toolCalls, (reg tc.name).isSome) :
    ∃ outputs,
      toolCallStep reg ⟨pre ++ [a], ltm⟩ = Except.ok ⟨outputs, Node.chat⟩ ∧
      outputs.map Msg.toolCallId = a.toolCalls.map (fun tc => some tc.id) ∧
      (∀ m ∈ outputs, m.role = Role.tool) ∧
      (applyCommand ⟨pre ++ [a], ltm⟩ ⟨outputs, Node.chat⟩).messages
        = pre ++ [a] ++ outputs := by
  obtain ⟨outs, hok, hids, -, hroles⟩ := execToolCalls_ok reg a.toolCalls h
  refine ⟨outs, ?_, hids, hroles, ?_⟩
  · simp [toolCallStep, hok]
  · simp [applyCommand]

/-- Witness for C2: three calls `[A, B, C]` produce three tool messages
with identifiers in the order A, B, C, routed back to `chat`. -/
theorem tool_results_in_call_order_witness :
    ∃ outputs,
      toolCallStep
        (fun n => if n = "get_weather" then some (fun _ => "18C, cloudy") else none)
        ⟨[] ++ [Msg.mk Role.assistant (Content.text "") [ToolCall.mk "get_weather" "Paris" "A", ToolCall.mk "get_weather" "London" "B", ToolCall.mk "get_weather" "Rome" "C"] none none], "m"⟩
        = Except.ok ⟨outputs, Node.chat⟩ ∧
      outputs.map Msg.toolCallId = [some "A", some "B", some "C"] := by
  obtain ⟨outs, h1, h2, -, -⟩ := tool_results_in_call_order
    (fun n => if n = "get_weather" then some (fun _ => "18C, cloudy") else none)
    [] (Msg.mk Role.assistant (Content.text "") [ToolCall.mk "get_weather" "Paris" "A", ToolCall.mk "get_weather" "London" "B", ToolCall.mk "get_weather" "Rome" "C"] none none)
    "m" (by intro tc htc; fin_cases htc <;> decide)
  exact ⟨outs, h1, h2⟩

/-- C9: a tool-execution step whose last assistant message references a
tool name absent from the registry fails fatally with an unknown-tool
error naming an absent tool — the error is returned to the caller (not a
success with the call skipped), and the whole turn loop propagates it as a
fatal turn error. -/
theorem unknown_tool_fatal (reg : Registry) (pre : List Msg) (a : Msg)
    (ltm : String) (chunks : List String) (rest : List ScriptEntry)
    (st : GraphState) (h : ∃ tc ∈ a.toolCalls, reg tc.name = none) :
    ∃ nm, reg nm = none ∧
      toolCallStep reg ⟨pre ++ [a], ltm⟩
        = Except.error (ToolError.unknownTool nm) ∧
      runLoop reg (ScriptEntry.mk chunks a :: rest) st
        = Except.error (TurnError.tool (ToolError.unknownTool nm)) := by
  obtain ⟨nm, h1, h2⟩ := execToolCalls_unknown reg a.toolCalls h
  have hne : a.toolCalls.isEmpty = false := by
    obtain ⟨tc, htc, -⟩ := h
    cases hcalls : a.toolCalls with
    | nil => rw [hcalls] at htc; exact absurd htc (List.not_mem_nil tc)
    | cons x xs => rfl
  refine ⟨nm, h1, ?_, ?_⟩
  · simp [toolCallStep, h2]
  · simp [runLoop, runLoopStream, hne, h2]

/-- Witness for C9: a call to an unregistered tool name makes the step and
the turn loop fail with the unknown-tool error. -/
theorem unknown_tool_fatal_witness :
    ∃ nm, (fun (_ : String) => (none : Option (String → String))) nm = none ∧
      toolCallStep (fun _ => none)
        ⟨[] ++ [Msg.mk Role.assistant (Content.text "") [ToolCall.mk "missing_tool" "x" "A"] none none], "m"⟩
        = Except.error (ToolError.unknownTool nm) ∧
      runLoop (fun _ => none)
        [ScriptEntry.mk [] (Msg.mk Role.assistant (Content.text "") [ToolCall.mk "missing_tool" "x" "A"] none none)]
        ⟨[], "m"⟩
        = Except.error (TurnError.tool (ToolError.unknownTool nm)) :=
  unknown_tool_fatal (fun _ => none) []
    (Msg.mk Role.assistant (Content.text "") [ToolCall.mk "missing_tool" "x" "A"] none none)
    "m" [] [] ⟨[], "m"⟩ ⟨ToolCall.mk "missing_tool" "x" "A", by simp, rfl⟩

/-- C10: every element of the assembled reply has role `user` or
`assistant` and non-empty content; moreover any message whose content is
falsy (such as an assistant message carrying only tool calls) is dropped
from the output entirely. -/
theorem assembled_reply_shape (msgs : List Msg) :
    (∀ m ∈ processMessages msgs,
      (m.role = Role.user ∨ m.role = Role.assistant) ∧ m.content ≠ "") ∧
    (∀ (xs ys : List Msg) (x : Msg), x.content.isTruthy = false →
      processMessages (xs ++ x :: ys) = processMessages (xs ++ ys)) := by
  constructor
  · intro m hm
    simp only [processMessages, List.mem_map, List.mem_filter] at hm
    obtain ⟨orig, ⟨-, hp⟩, hrender⟩ := hm
    have hand := Bool.and_eq_true_iff.mp hp
    have hrole : orig.role = Role.assistant ∨ orig.role = Role.user := by
      rcases Bool.or_eq_true_iff.mp hand.1 with h1 | h2
      · exact Or.inl (by simpa using h1)
      · exact Or.inr (by simpa using h2)
    constructor
    · rw [← hrender]
      rcases hrole with h | h <;> simp [h]
    · rw [← hrender]
      exact Content.toStr_ne_empty orig.content hand.2
  · intro xs ys x hx
    simp [processMessages, List.filter_append, List.filter_cons, hx]

/-- Witness for C10: an assembled message satisfies the role and
non-emptiness conditions, and a tool-call-only assistant message in the
middle of a history is omitted from the assembly. -/
theorem assembled_reply_shape_witness :
    (((ApiMessage.mk Role.user "hi").role = Role.user ∨
      (ApiMessage.mk Role.user "hi").role = Role.assistant) ∧
      (ApiMessage.mk Role.user "hi").content ≠ "") ∧
    processMessages ([Msg.plain Role.user "hi"] ++
        Msg.mk Role.assistant (Content.text "") [ToolCall.mk "get_weather" "Paris" "A"] none none ::
        [Msg.plain Role.assistant "sunny"])
      = processMessages ([Msg.plain Role.user "hi"] ++ [Msg.plain Role.assistant "sunny"]) := by
  constructor
  · exact (assembled_reply_shape [Msg.plain Role.user "hi"]).1
      (ApiMessage.mk Role.user "hi") (by decide)
  · exact (assembled_reply_shape []).2 [Msg.plain Role.user "hi"]
      [Msg.plain Role.assistant "sunny"]
      (Msg.mk Role.assistant (Content.text "") [ToolCall.mk "get_weather" "Paris" "A"] none none)
      rfl

/-- Computation of `createGraph` when the checkpointer initializes. -/
theorem createGraph_ok (env : Environment) (db : CheckpointDb) :
    createGraph env (Except.ok db) = Except.ok (some ⟨some db⟩) := by
  simp [createGraph, getCheckpointer]

/-- C3: when the memory search fails with any error, `_get_relevant_memory`
returns the empty string instead of propagating, `get_response` proceeds
with the placeholder "No relevant memory found." as the turn's long-term
memory, and the turn still returns a normally assembled reply. -/
theorem memory_failure_best_effort (env : Environment) (db : CheckpointDb)
    (err : String) (reg : Registry) (script : List ScriptEntry)
    (input : List Msg) (final : GraphState)
    (hrun : runLoop reg script ⟨input, "No relevant memory found."⟩ = Except.ok final) :
    getRelevantMemory (MemorySearchOutcome.failure err) = "" ∧
    ∃ r, getResponse env (Except.ok db) (MemorySearchOutcome.failure err)
        reg script input = Except.ok r ∧
      r.finalState.long_term_memory = "No relevant memory found." ∧
      r.reply = processMessages r.finalState.messages := by
  refine ⟨rfl, ⟨final, processMessages final.messages,
    [Event.checkpointCommit final.messages,
     Event.scheduleMemoryUpdate final.messages, Event.returnReply]⟩, ?_, ?_, rfl⟩
  · simp only [getResponse, createGraph_ok]
    have hm : relevantMemoryOrDefault (MemorySearchOutcome.failure err)
        = "No relevant memory found." := rfl
    rw [hm, hrun]
    rfl
  · exact (runLoop_memory reg script _ final hrun).trans rfl

/-- Witness for C3: with the search failing, the weather turn completes
with the placeholder as its memory context. -/
theorem memory_failure_best_effort_witness :
    getRelevantMemory (MemorySearchOutcome.failure "service unavailable") = "" ∧
    ∃ r, getResponse Environment.development (Except.ok demoDb)
        (MemorySearchOutcome.failure "service unavailable")
        demoRegistry demoScript [demoUser] = Except.ok r ∧
      r.finalState.long_term_memory = "No relevant memory found." ∧
      r.reply = processMessages r.finalState.messages :=
  memory_failure_best_effort Environment.development demoDb "service unavailable"
    demoRegistry demoScript [demoUser]
    ⟨demoHistoryMsgs, "No relevant memory found."⟩ (by decide)

/-- C4: when checkpointer initialization fails, in production the graph is
compiled without a checkpointer and a turn still completes and returns a
reply (with no checkpoint commit in its trace), while in any other
environment the same failure propagates as an error before any reply is
produced. -/
theorem checkpointer_degraded_by_env (env : Environment) (e : String)
    (mem : MemorySearchOutcome) (reg : Registry) (script : List ScriptEntry)
    (input : List Msg) (final : GraphState)
    (hrun : runLoop reg script ⟨input, relevantMemoryOrDefault mem⟩ = Except.ok final) :
    (env = Environment.production →
      createGraph env (Except.error e) = Except.ok (some ⟨none⟩) ∧
      ∃ r, getResponse env (Except.error e) mem reg script input = Except.ok r ∧
        Event.checkpointCommit final.messages ∉ r.trace ∧
        r.reply = processMessages final.messages) ∧
    (env ≠ Environment.production →
      getResponse env (Except.error e) mem reg script input = Except.error e) := by
  constructor
  · intro henv
    subst henv
    have hg : createGraph Environment.production (Except.error e)
        = Except.ok (some ⟨none⟩) := by
      simp [createGraph, getCheckpointer]
    refine ⟨hg, ⟨final, processMessages final.messages,
      [Event.scheduleMemoryUpdate final.messages, Event.returnReply]⟩, ?_, ?_, rfl⟩
    · simp only [getResponse, hg]
      rw [hrun]
      rfl
    · simp
  · intro henv
    have hg : createGraph env (Except.error e) = Except.error e := by
      simp [createGraph, getCheckpointer, henv]
    simp only [getResponse, hg]

/-- Witness for C4: the same initialization failure leaves production
serving replies and makes development raise. -/
theorem checkpointer_degraded_by_env_witness :
    (∃ r, getResponse Environment.production (Except.error "conn refused")
        (MemorySearchOutcome.failure "x") demoRegistry demoScript [demoUser]
        = Except.ok r) ∧
    getResponse Environment.development (Except.error "conn refused")
        (MemorySearchOutcome.failure "x") demoRegistry demoScript [demoUser]
      = Except.error "conn refused" := by
  constructor
  · obtain ⟨-, r, h1, -⟩ :=
      (checkpointer_degraded_by_env Environment.production "conn refused"
        (MemorySearchOutcome.failure "x") demoRegistry demoScript [demoUser]
        ⟨demoHistoryMsgs, "No relevant memory found."⟩ (by decide)).1 rfl
    exact ⟨r, h1⟩
  · exact (checkpointer_degraded_by_env Environment.development "conn refused"
      (MemorySearchOutcome.failure "x") demoRegistry demoScript [demoUser]
      ⟨demoHistoryMsgs, "No relevant memory found."⟩ (by decide)).2 (by decide)

/-- Counterexample to C5 as stated: after the weather turn, the history is
not the role-filtered (system/tool-excluded) rendering of the state — the
turn's tool-call-only assistant message, though an assistant message of the
turn, is missing from the assembled history, which keeps 2 of the 3
user/assistant messages. -/
theorem history_role_filter_counterexample :
    getChatHistory (some ⟨demoHistoryMsgs, "m"⟩)
      ≠ (demoHistoryMsgs.filter fun m =>
          m.role == Role.user || m.role == Role.assistant).map
          (fun m => ApiMessage.mk m.role m.content.toStr) ∧
    (getChatHistory (some ⟨demoHistoryMsgs, "m"⟩)).length = 2 ∧
    (demoHistoryMsgs.filter fun m =>
        m.role == Role.user || m.role == Role.assistant).length = 3 := by
  refine ⟨by decide, by decide, by decide⟩

/-- C5 (amended): after a successful turn, `get_chat_history` returns
exactly the user and assistant messages **with non-empty content**, in
submission order, with system and tool messages excluded and structured
content flattened by `str`; `get_response` and `get_chat_history` produce
the identical assembly of the final state. -/
theorem history_matches_reply (env : Environment) (db : CheckpointDb)
    (mem : MemorySearchOutcome) (reg : Registry) (script : List ScriptEntry)
    (input : List Msg) (final : GraphState)
    (hrun : runLoop reg script ⟨input, relevantMemoryOrDefault mem⟩ = Except.ok final) :
    ∃ r, getResponse env (Except.ok db) mem reg script input = Except.ok r ∧
      r.finalState = final ∧
      getChatHistory (some final) = r.reply ∧
      r.reply = (final.messages.filter fun m =>
          (m.role == Role.assistant || m.role == Role.user) && m.content.isTruthy).map
          (fun m => ApiMessage.mk m.role m.content.toStr) := by
  refine ⟨⟨final, processMessages final.messages,
    [Event.checkpointCommit final.messages,
     Event.scheduleMemoryUpdate final.messages, Event.returnReply]⟩, ?_, rfl, rfl, rfl⟩
  simp only [getResponse, createGraph_ok]
  rw [hrun]
  rfl

/-- Witness for C5: the weather turn's reply and history agree and render
the spec's scenario — the user question and the final answer only. -/
theorem history_matches_reply_witness :
    ∃ r, getResponse Environment.development (Except.ok demoDb)
        (MemorySearchOutcome.failure "x") demoRegistry demoScript [demoUser]
        = Except.ok r ∧
      getChatHistory (some r.finalState) = r.reply ∧
      r.reply = [ApiMessage.mk Role.user "What is the weather?",
                 ApiMessage.mk Role.assistant "It is 18C and cloudy in Paris."] := by
  obtain ⟨r, h1, h2, h3, h4⟩ := history_matches_reply Environment.development demoDb
    (MemorySearchOutcome.failure "x") demoRegistry demoScript [demoUser]
    ⟨demoHistoryMsgs, "No relevant memory found."⟩ (by decide)
  refine ⟨r, h1, ?_, ?_⟩
  · rw [h2]
    exact h3
  · exact h4.trans (by decide)

/-- Token emission of the turn loop: when every intermediate round carries
resolvable tool calls and the last round carries none, the stream consists
of the chunks of every chat round, concatenated in round order. -/
theorem runLoopStream_tokens (reg : Registry) :
    ∀ (rounds : List ScriptEntry) (lastE : ScriptEntry) (st : GraphState),
      (∀ en ∈ rounds, en.response.toolCalls ≠ [] ∧
        ∀ tc ∈ en.response.toolCalls, (reg tc.name).isSome) →
      lastE.response.toolCalls = [] →
      (runLoopStream reg (rounds ++ [lastE]) st).1
        = ((rounds ++ [lastE]).map ScriptEntry.chunks).flatten := by
  intro rounds
  induction rounds with
  | nil =>
    intro lastE st _ hlast
    simp [runLoopStream, hlast]
  | cons e rest ih =>
    intro lastE st h hlast
    have he := h e (by simp)
    have hne : e.response.toolCalls.isEmpty = false := by
      cases hc : e.response.toolCalls with
      | nil => exact absurd hc he.1
      | cons x xs => rfl
    obtain ⟨outs, hok, -, -, -⟩ := execToolCalls_ok reg e.response.toolCalls he.2
    rw [List.cons_append, runLoopStream]
    simp only [hne, Bool.false_eq_true, if_false, hok]
    simp [ih lastE _ (fun x hx => h x (by simp [hx])) hlast]

/-- Counterexample to C6 as stated: in the weather turn, the token
"thinking" streamed by the intermediate (tool-call-round) chat step is
yielded to the caller, so the stream is not only the tokens of the final
chat step (which are just "It is 18C"). -/
theorem stream_counterexample_intermediate_tokens :
    "thinking" ∈ (getStreamResponse Environment.development (Except.ok demoDb)
        (MemorySearchOutcome.failure "x") demoRegistry demoScript [demoUser]).1 ∧
    (getStreamResponse Environment.development (Except.ok demoDb)
        (MemorySearchOutcome.failure "x") demoRegistry demoScript [demoUser]).1
      ≠ ["It is 18C"] := by
  refine ⟨by decide, by decide⟩

/-- C6 (amended): the token sequence yielded by `get_stream_response` is
the concatenation, in round order, of the tokens of **every** chat step of
the turn — tool executions emit no tokens of their own, but the code
applies no filtering, so intermediate tool-call-round chat tokens are
yielded along with the final chat step's. -/
theorem stream_yields_every_chat_round (env : Environment) (db : CheckpointDb)
    (mem : MemorySearchOutcome) (reg : Registry) (input : List Msg)
    (rounds : List ScriptEntry) (lastE : ScriptEntry)
    (hmid : ∀ en ∈ rounds, en.response.toolCalls ≠ [] ∧
      ∀ tc ∈ en.response.toolCalls, (reg tc.name).isSome)
    (hlast : lastE.response.toolCalls = []) :
    (getStreamResponse env (Except.ok db) mem reg (rounds ++ [lastE]) input).1
      = ((rounds ++ [lastE]).map ScriptEntry.chunks).flatten := by
  simp only [getStreamResponse, createGraph_ok]
  cases hrs : runLoopStream reg (rounds ++ [lastE])
      ⟨input, relevantMemoryOrDefault mem⟩ with
  | mk tokens res =>
    have htok : tokens = (runLoopStream reg (rounds ++ [lastE])
        ⟨input, relevantMemoryOrDefault mem⟩).1 := by rw [hrs]
    have hall := runLoopStream_tokens reg rounds lastE
      ⟨input, relevantMemoryOrDefault mem⟩ hmid hlast
    cases res with
    | error e => simpa [htok] using hall
    | ok finalState => simpa [htok] using hall

/-- Witness for C6 (amended): the weather turn streams its two rounds'
tokens in order. -/
theorem stream_yields_every_chat_round_witness :
    (getStreamResponse Environment.development (Except.ok demoDb)
        (MemorySearchOutcome.failure "x") demoRegistry
        ([ScriptEntry.mk ["thinking"] demoToolCallMsg] ++ [ScriptEntry.mk ["It is 18C"] demoFinalMsg])
        [demoUser]).1
      = ["thinking", "It is 18C"] := by
  have h := stream_yields_every_chat_round Environment.development demoDb
    (MemorySearchOutcome.failure "x") demoRegistry [demoUser]
    [ScriptEntry.mk ["thinking"] demoToolCallMsg]
    (ScriptEntry.mk ["It is 18C"] demoFinalMsg)
    (by intro en hen
        rcases List.mem_singleton.mp hen with rfl
        exact ⟨by decide, by intro tc htc; rcases List.mem_singleton.mp htc with rfl; decide⟩)
    rfl
  exact h.trans (by decide)

/-- C7: the background memory update is scheduled only after the turn's
conversation state is finalized, and it observes the complete turn: in the
single-shot path the trace is checkpoint-commit, then scheduling of the
update carrying exactly the final message list; in the streaming path the
trace is commit, then the post-stream read-back of the finalized state,
then scheduling of the update carrying that same complete list. -/
theorem memory_update_after_finalized_turn (env : Environment)
    (db : CheckpointDb) (mem : MemorySearchOutcome) (reg : Registry)
    (script : List ScriptEntry) (input : List Msg) (final : GraphState)
    (hrun : runLoop reg script ⟨input, relevantMemoryOrDefault mem⟩ = Except.ok final) :
    (∃ r, getResponse env (Except.ok db) mem reg script input = Except.ok r ∧
      r.trace = [Event.checkpointCommit final.messages,
                 Event.scheduleMemoryUpdate final.messages, Event.returnReply]) ∧
    (∃ s, (getStreamResponse env (Except.ok db) mem reg script input).2
        = Except.ok s ∧
      s.trace = [Event.checkpointCommit final.messages,
                 Event.stateReadBack final.messages,
                 Event.scheduleMemoryUpdate final.messages]) := by
  constructor
  · refine ⟨⟨final, processMessages final.messages,
      [Event.checkpointCommit final.messages,
       Event.scheduleMemoryUpdate final.messages, Event.returnReply]⟩, ?_, rfl⟩
    simp only [getResponse, createGraph_ok]
    rw [hrun]
    rfl
  · refine ⟨⟨final,
      [Event.checkpointCommit final.messages,
       Event.stateReadBack final.messages,
       Event.scheduleMemoryUpdate final.messages]⟩, ?_, rfl⟩
    simp only [getStreamResponse, createGraph_ok]
    cases hrs : runLoopStream reg script ⟨input, relevantMemoryOrDefault mem⟩ with
    | mk tokens res =>
      have hres : res = Except.ok final := by
        rw [runLoop, hrs] at hrun
        exact hrun
      subst hres
      rfl

/-- Witness for C7: the weather turn's single-shot and streaming traces
place the commit and the finalized-state read-back before the memory
update, whose payload is the full four-message turn. -/
theorem memory_update_after_finalized_turn_witness :
    (∃ r, getResponse Environment.development (Except.ok demoDb)
        (MemorySearchOutcome.failure "x") demoRegistry demoScript [demoUser]
        = Except.ok r ∧
      r.trace = [Event.checkpointCommit demoHistoryMsgs,
                 Event.scheduleMemoryUpdate demoHistoryMsgs, Event.returnReply]) ∧
    (∃ s, (getStreamResponse Environment.development (Except.ok demoDb)
        (MemorySearchOutcome.failure "x") demoRegistry demoScript [demoUser]).2
        = Except.ok s ∧
      s.trace = [Event.checkpointCommit demoHistoryMsgs,
                 Event.stateReadBack demoHistoryMsgs,
                 Event.scheduleMemoryUpdate demoHistoryMsgs]) :=
  memory_update_after_finalized_turn Environment.development demoDb
    (MemorySearchOutcome.failure "x") demoRegistry demoScript [demoUser]
    ⟨demoHistoryMsgs, "No relevant memory found."⟩ (by decide)

/-- C8: with the checkpointer available, `clear_chat_history` deletes all
checkpoint and write records of the session, reports both deleted counts,
and never errors on a repeat: the immediately following call succeeds and
reports zero deletions from both collections. -/
theorem clear_deletes_all_and_repeat_reports_zero (ckpt : Option CheckpointDb)
    (db : CheckpointDb) (session_id : String) (h : ckpt = some db) :
    ∃ db2, clearChatHistory ckpt session_id
        = Except.ok (db2,
            (db.checkpoints.filter fun r => r.thread_id == session_id).length,
            (db.checkpoint_writes.filter fun r => r.thread_id == session_id).length) ∧
      (∀ r ∈ db2.checkpoints, r.thread_id ≠ session_id) ∧
      (∀ r ∈ db2.checkpoint_writes, r.thread_id ≠ session_id) ∧
      clearChatHistory (some db2) session_id = Except.ok (db2, 0, 0) := by
  subst h
  refine ⟨⟨db.checkpoints.filter fun r => !(r.thread_id == session_id),
           db.checkpoint_writes.filter fun r => !(r.thread_id == session_id)⟩,
    rfl, ?_, ?_, ?_⟩
  · intro r hr
    simpa using (List.mem_filter.mp hr).2
  · intro r hr
    simpa using (List.mem_filter.mp hr).2
  · simp [clearChatHistory, delete_many, List.filter_filter]

/-- Witness for C8: clearing session "s1" from the demo database removes
its one checkpoint and one write record, and clearing again reports zero
deletions without error. -/
theorem clear_repeat_witness :
    ∃ db2, clearChatHistory (some demoDb) "s1" = Except.ok (db2, 1, 1) ∧
      clearChatHistory (some db2) "s1" = Except.ok (db2, 0, 0) := by
  obtain ⟨db2, h1, -, -, h4⟩ :=
    clear_deletes_all_and_repeat_reports_zero (some demoDb) demoDb "s1" rfl
  exact ⟨db2, by simpa using h1, h4⟩

end LangGraphAgent